import Mathlib

/-!
Verification of the waterline query-forging core against its specification.

The development shallowly embeds the relevant methods of the repository
(`replace-collection.ts`, `find.ts` (MethodFind and MethodFindOrCreate) and
`count.ts`) as executable Lean functions.  Stateful callback sequencing is
embedded as an explicit `Schedule` of primitive operations: `Schedule.seq`
means the first operation's success callback gates everything after it,
while `Schedule.par` is an unordered batch dispatched concurrently
(the `async.each` fan-out of the one-to-many path).

Components of the repository that are not part of the analyzed sources
(the stage-two forger, `findOne`, `create`, stage-three forging inside
`helpFind`) are modelled from the specification; each such definition says
so in its doc comment.
-/

/-- Error codes of the stage-two forger's tagged errors (`e.code`). -/
inductive ECode
  | E_NOOP
  | E_INVALID_CRITERIA
  | E_INVALID_POPULATES
  | E_INVALID_NEW_RECORDS
  | E_INVALID_TARGET_RECORD_IDS
  | E_INVALID_COLLECTION_ATTR_NAME
  | E_INVALID_ASSOCIATED_IDS
  | E_INVALID_META
deriving DecidableEq, Repr

/-- The recognized `meta` flags (spec section 6).  `none` models an absent key;
JS dictionaries with extra keys are out of scope of the claims. -/
structure Meta where
  fetch : Option Bool := none
  skipAllLifecycleCallbacks : Option Bool := none
  cascade : Option Bool := none
deriving DecidableEq, Repr

/-- An association schema entry as read by `replace-collection.ts`
(`WLModel.schema[query.collectionAttrName]`): the join/child collection
identity, the `referenceIdentity` of the model the entry references, the
join column `on`, and the one-to-many `via` attribute name. -/
structure AssocSchemaDef where
  collection : String
  referenceIdentity : String
  onCol : Option String := none
  via : Option String := none
deriving DecidableEq, Repr

/-- An attribute entry of a junction model's `schema` as scanned by
`replace-collection.ts` (`references` / `columnName` metadata). -/
structure JoinAttrDef where
  references : Option String := none
  columnName : Option String := none
deriving DecidableEq, Repr

/-- A model descriptor (`WLModel` / `WLChild`): identity, primary key,
the `junctionTable` flag and `throughTable` mapping (both `none` when the
property is absent, mirroring the `_.has` checks), and the two views of the
JS `schema` dictionary that `replace-collection.ts` reads: association
entries and plain attribute entries. -/
structure ModelDescriptor where
  identity : String
  primaryKey : String
  junctionTable : Option Bool := none
  throughTable : Option (List (String × String)) := none
  schemaAssoc : List (String × AssocSchemaDef) := []
  schemaAttrs : List (String × JoinAttrDef) := []

/-- The ORM context: `orm.collections`, a total lookup from model identity
to descriptor (the source assumes every referenced identity is present). -/
structure Orm where
  collections : String → ModelDescriptor

/-- JS property access with a possibly-undefined key coerces the key to the
string form, `undefined` included; `keyOf` performs that coercion. -/
def keyOf : Option String → String
  | some s => s
  | none => "undefined"

/-- Lookup of `WLModel.schema[attr]`; the stage-two forger guarantees the
attribute names a real association before the expansion runs, so the
default value is never observed on forged queries. -/
def lookupAssocSchema (m : ModelDescriptor) (attr : String) : AssocSchemaDef :=
  ((m.schemaAssoc.find? (fun kv => kv.1 == attr)).map (fun kv => kv.2)).getD
    { collection := "", referenceIdentity := "" }

/-- Truthiness of `_.has(proto(WLChild), 'junctionTable') && WLChild.junctionTable`. -/
def isJunction (m : ModelDescriptor) : Bool :=
  match m.junctionTable with
  | some b => b
  | none => false

/-- Truthiness of `_.has(proto(WLChild), 'throughTable') && _.keys(WLChild.throughTable).length`. -/
def isThrough (m : ModelDescriptor) : Bool :=
  match m.throughTable with
  | some t => t.length != 0
  | none => false

/-- replace-collection.ts lines 280-294: `WLChild` starts as
`orm.collections[schemaDef.collection]`; if `schemaDef.referenceIdentity`
differs from that model's identity, `manyToMany` is set and `WLChild` is
re-pointed at `orm.collections[schemaDef.referenceIdentity]`.  Returns the
flag from this step together with the (possibly re-pointed) child. -/
def resolveChild (orm : Orm) (sd : AssocSchemaDef) : Bool × ModelDescriptor :=
  let c0 := orm.collections sd.collection
  if sd.referenceIdentity ≠ c0.identity then
    (true, orm.collections sd.referenceIdentity)
  else
    (false, c0)

/-- replace-collection.ts lines 287-304: the complete many-to-many
classification (reference mismatch, or truthy `junctionTable`, or non-empty
`throughTable` on the resolved child). -/
def classifyManyToMany (orm : Orm) (sd : AssocSchemaDef) : Bool :=
  let rc := resolveChild orm sd
  rc.1 || isJunction rc.2 || isThrough rc.2

/-- replace-collection.ts lines 344-353: scan the junction model's schema
for the attribute whose `columnName` equals `schemaDef.on` (it carries
`references`); the last match of the iteration wins. -/
def scanParentRef (child : ModelDescriptor) (sd : AssocSchemaDef) : Option String :=
  child.schemaAttrs.foldl
    (fun acc kd =>
      if kd.2.references.isSome && kd.2.columnName.isSome && kd.2.columnName == sd.onCol
      then some kd.1 else acc)
    none

/-- replace-collection.ts lines 369-383: scan the junction model's schema
for the attribute (with `references`) whose `columnName` differs from
`schemaDef.on`; the last match wins. -/
def scanChildRef (child : ModelDescriptor) (sd : AssocSchemaDef) : Option String :=
  child.schemaAttrs.foldl
    (fun acc kd =>
      if kd.2.references.isSome && kd.2.columnName.isSome && kd.2.columnName != sd.onCol
      then some kd.1 else acc)
    none

/-- replace-collection.ts lines 357-364: for a through table, the child
reference is `throughTable[WLModel.identity + '.' + attrName]` and the
parent reference is the right-hand side of the last entry under any other
key. -/
def throughRefs (parentIdentity attrName : String) (child : ModelDescriptor) :
    Option String × Option String :=
  let key := parentIdentity ++ "." ++ attrName
  let tt := child.throughTable.getD []
  let childRef := (tt.find? (fun kv => kv.1 == key)).map (fun kv => kv.2)
  let parentRef := tt.foldl (fun acc kv => if kv.1 ≠ key then some kv.2 else acc) none
  (parentRef, childRef)

/-- replace-collection.ts lines 336-383: computation of
`(parentReference, childReference)` for the many-to-many path (junction
branch, else through branch; the child reference of a junction is found by
a second scan). -/
def computeRefs (parentIdentity attrName : String) (child : ModelDescriptor)
    (sd : AssocSchemaDef) : Option String × Option String :=
  let pc1 : Option String × Option String :=
    if isJunction child then (scanParentRef child sd, none)
    else if child.throughTable.isSome then throughRefs parentIdentity attrName child
    else (none, none)
  let cr := if isJunction child then scanChildRef child sd else pc1.2
  (pc1.1, cr)

/-- A primitive operation spawned by the collection expansion, carrying the
`meta` it was dispatched with.  `destroy` carries the single `in`-clause of
its criteria; `updateIn` is an update whose criteria is an `in`-clause
(the null-out step, `setVal = none` being SQL NULL); `updateEq` is an
update whose criteria pins one attribute to one id (the per-pair step). -/
inductive PrimOp
  | destroy (whereKey : String) (whereIn : List Nat) (meta : Meta)
  | createEach (records : List (List (String × Nat))) (meta : Meta)
  | updateIn (whereKey : String) (whereIn : List Nat) (setKey : String)
      (setVal : Option Nat) (meta : Meta)
  | updateEq (whereKey : String) (whereVal : Nat) (setKey : String)
      (setVal : Option Nat) (meta : Meta)
deriving DecidableEq, Repr

/-- The meta dictionary an operation was dispatched with. -/
def PrimOp.meta : PrimOp → Meta
  | .destroy _ _ m => m
  | .createEach _ m => m
  | .updateIn _ _ _ _ m => m
  | .updateEq _ _ _ _ m => m

/-- The callback structure of the expansion: `seq op s` dispatches `op` and
runs `s` only from `op`'s success callback; `par ops s` dispatches all of
`ops` concurrently with no ordering among them (`async.each`) and runs `s`
after the join. -/
inductive Schedule
  | done
  | seq (op : PrimOp) (rest : Schedule)
  | par (ops : List PrimOp) (rest : Schedule)
deriving DecidableEq, Repr

/-- All operations of a schedule, ignoring ordering. -/
def Schedule.ops : Schedule → List PrimOp
  | .done => []
  | .seq op s => op :: s.ops
  | .par l s => l ++ s.ops

/-- `Linearizes s tr`: `tr` is an order in which the operations of `s` can
complete.  A `seq` head precedes everything after it; a `par` batch may
complete in any permutation. -/
inductive Linearizes : Schedule → List PrimOp → Prop
  | done : Linearizes Schedule.done []
  | seq {op : PrimOp} {s : Schedule} {tr : List PrimOp} :
      Linearizes s tr → Linearizes (Schedule.seq op s) (op :: tr)
  | par {ops ops2 : List PrimOp} {s : Schedule} {tr : List PrimOp} :
      List.Perm ops2 ops → Linearizes s tr → Linearizes (Schedule.par ops s) (ops2 ++ tr)

/-- replace-collection.ts lines 408-418: the nested `_.each` loops pushing
one join record per `(targetId, associatedId)` pair, outer loop over the
target ids. -/
def insertRecordsOf (pRef cRef : String) (targets assoc : List Nat) :
    List (List (String × Nat)) :=
  targets.flatMap (fun targetId => assoc.map (fun associatedId =>
    [(pRef, targetId), (cRef, associatedId)]))

/-- replace-collection.ts lines 392-440: destroy all join rows whose parent
reference is in the target ids (with `fetch` forced off at line 401, before
either child call), then, from the destroy callback, `createEach` the
prepared records unless `associatedIds` is empty. -/
def manyToManySchedule (pRef cRef : String) (targets assoc : List Nat) (m : Meta) :
    Schedule :=
  let mm := { m with fetch := some false }
  Schedule.seq (PrimOp.destroy pRef targets mm)
    (if assoc.length = 0 then Schedule.done
     else Schedule.seq (PrimOp.createEach (insertRecordsOf pRef cRef targets assoc) mm)
            Schedule.done)

/-- replace-collection.ts lines 466-526: null out the `via` foreign key on
every child whose `via` value is in the target ids, then, from that
update's callback, dispatch the per-pair updates through `async.each`
(unordered). -/
def oneToManySchedule (viaKey pk : String) (targets assoc : List Nat) (m : Meta) :
    Schedule :=
  Schedule.seq (PrimOp.updateIn viaKey targets viaKey none m)
    (Schedule.par
      (targets.flatMap (fun targetId => assoc.map (fun associatedId =>
        PrimOp.updateEq pk associatedId viaKey (some targetId) m)))
      Schedule.done)

/-- The stage-two query of a `replaceCollection` call, after the variadic
stage has populated it. -/
structure RCQuery where
  targetRecordIds : List Nat
  collectionAttrName : String
  associatedIds : List Nat
  meta : Option Meta := none
deriving Repr

/-- Modelled from the spec: the stage-two forger (`forgeStageTwoQuery`, not
part of the analyzed sources) raises `E_NOOP` for a `replaceCollection`
query whose `targetRecordIds` is an empty list ("An empty `targetRecordIds`
list is a no-op (`E_NOOP`)").  Type and attribute-name validation of the
ids is outside the fragment the claims need, so it is not modelled. -/
def forgeRCStageTwo (q : RCQuery) : Option ECode :=
  if q.targetRecordIds.length = 0 then some ECode.E_NOOP else none

/-- The outcome of a `replaceCollection` call: the error handed to `done`
(`none` on `done()`, which is also the no-op response -- the method never
reports a result payload, replace-collection.ts line 534), and the schedule
of primitive operations it dispatched. -/
structure RCResult where
  err : Option ECode := none
  sched : Schedule := Schedule.done
deriving DecidableEq, Repr

/-- `WLModel.schema[query.collectionAttrName]` for the query. -/
def rcAssocDef (orm : Orm) (parentIdentity : String) (q : RCQuery) : AssocSchemaDef :=
  lookupAssocSchema (orm.collections parentIdentity) q.collectionAttrName

/-- The resolved (possibly re-pointed) `WLChild` for the query. -/
def rcChild (orm : Orm) (parentIdentity : String) (q : RCQuery) : ModelDescriptor :=
  (resolveChild orm (rcAssocDef orm parentIdentity q)).2

/-- The `(parentReference, childReference)` pair for the query. -/
def rcRefs (orm : Orm) (parentIdentity : String) (q : RCQuery) :
    Option String × Option String :=
  computeRefs parentIdentity q.collectionAttrName (rcChild orm parentIdentity q)
    (rcAssocDef orm parentIdentity q)

/-- replace-collection.ts line 309: the shallow clone of the caller's meta
with `skipAllLifecycleCallbacks` forced to `true`. -/
def rcModifiedMeta (q : RCQuery) : Meta :=
  { q.meta.getD {} with skipAllLifecycleCallbacks := some true }

/-- The meta carried by the many-to-many primitives: `modifiedMeta` after
line 401 additionally forces `fetch` off. -/
def rcM2MMeta (q : RCQuery) : Meta :=
  { rcModifiedMeta q with fetch := some false }

/-- replace-collection.ts lines 269-536: the expansion body that runs once
stage-two forging succeeded -- classify the association, then build the
many-to-many destroy/createEach schedule or the one-to-many
null-out/per-pair-update schedule. -/
def rcExpand (orm : Orm) (parentIdentity : String) (q : RCQuery) : RCResult :=
  let sd := rcAssocDef orm parentIdentity q
  if classifyManyToMany orm sd then
    { sched := manyToManySchedule (keyOf (rcRefs orm parentIdentity q).1)
        (keyOf (rcRefs orm parentIdentity q).2)
        q.targetRecordIds q.associatedIds (rcModifiedMeta q) }
  else
    { sched := oneToManySchedule (keyOf sd.via) (rcChild orm parentIdentity q).primaryKey
        q.targetRecordIds q.associatedIds (rcModifiedMeta q) }

/-- replace-collection.ts lines 189-537: `MethodReplaceCollection`'s
executor -- forge the stage-two query, tolerate the `E_NOOP` case by
calling `done()` with no error and no result and no database contact
(lines 250-252), surface other forging errors, and otherwise run the
expansion. -/
def replaceCollectionExec (orm : Orm) (parentIdentity : String) (q : RCQuery) : RCResult :=
  match forgeRCStageTwo q with
  | some ECode.E_NOOP => {}
  | some e => { err := some e }
  | none => rcExpand orm parentIdentity q

/-- A `where` clause, restricted to the fragment the claims exercise:
the disjunction shape `{ or: [ {attr: val}, ... ] }` (so `{ or: [] }` is
the canonical no-op), a single equality constraint, and a single
`in`-clause. -/
inductive WhereClause
  | disj (ds : List (String × Nat))
  | attrEq (attr : String) (v : Nat)
  | attrIn (attr : String) (vs : List Nat)
deriving DecidableEq, Repr

/-- A criteria dictionary: `where` plus the paging clauses. -/
structure Criteria where
  whereC : WhereClause
  limit : Option Nat := none
  skip : Option Nat := none
  sort : Option String := none
deriving DecidableEq, Repr

/-- The attribute names mentioned by a `where` clause. -/
def whereAttrNames : WhereClause → List String
  | .disj ds => ds.map (fun p => p.1)
  | .attrEq a _ => [a]
  | .attrIn a _ => [a]

/-- Every attribute mentioned by the `where` clause exists on the model. -/
def whereAttrsValid (attrs : List String) (w : WhereClause) : Bool :=
  (whereAttrNames w).all (fun a => attrs.contains a)

/-- The `where` clause is provably unsatisfiable in the two canonical ways
the spec names: an empty `or` disjunction, or an `in` clause against an
empty set. -/
def whereIsNoop : WhereClause → Bool
  | .disj ds => ds.isEmpty
  | .attrIn _ vs => vs.isEmpty
  | .attrEq _ _ => false

/-- Modelled from the spec: the criteria rules of the stage-two forger
(`forgeStageTwoQuery`, not part of the analyzed sources).  A non-existent
attribute name in `where` always fails with `E_INVALID_CRITERIA`; a
provably unsatisfiable `where` raises the `E_NOOP` signal; otherwise the
query passes. -/
def forgeReadCriteria (attrs : List String) (c : Criteria) : Option ECode :=
  if whereAttrsValid attrs c.whereC = false then some ECode.E_INVALID_CRITERIA
  else if whereIsNoop c.whereC then some ECode.E_NOOP
  else none

/-- A record: attribute name to value, `some none` being an explicit null. -/
abbrev Record := List (String × Option Nat)

/-- `record[key]`: `none` when the key is absent. -/
def recGet (r : Record) (k : String) : Option (Option Nat) :=
  (r.find? (fun kv => kv.1 == k)).map (fun kv => kv.2)

/-- `delete record[key]`. -/
def recDelete (r : Record) (k : String) : Record :=
  r.filter (fun kv => kv.1 ≠ k)

/-- The storage adapter as seen by `count.ts` / `find.ts`: the bound
adapter methods, as result oracles. -/
structure Adapter where
  countFn : Criteria → Nat
  findFn : Criteria → List Record

/-- Pipeline events recorded by the read methods after stage-two forging:
the stage-three forge and the adapter calls. -/
inductive PipelineEvent
  | stageThree
  | adapterCount (c : Criteria)
  | adapterFind (c : Criteria)
deriving DecidableEq, Repr

/-- The `(err, numRecords)` pair handed to `count`'s `done`. -/
structure CountOutcome where
  err : Option ECode := none
  result : Option Nat := none
deriving DecidableEq, Repr

/-- The `(err, records)` pair handed to `find`'s `done`. -/
structure FindOutcome where
  err : Option ECode := none
  records : Option (List Record) := none
deriving DecidableEq, Repr

/-- count.ts lines 154-222: forge the stage-two query; on
`E_INVALID_CRITERIA` / `E_INVALID_META` / unexpected codes call `done(e)`,
on `E_NOOP` call `done(undefined, 0)` and stop; otherwise forge the
stage-three query and call `adapter.count`.  The stage-three forge and
adapter reply handling (not part of the analyzed sources beyond the call
sites) are modelled as an identity rewrite plus the adapter oracle. -/
def MethodCount.exec (attrs : List String) (c : Criteria) (ad : Adapter) :
    CountOutcome × List PipelineEvent :=
  match forgeReadCriteria attrs c with
  | some ECode.E_NOOP => ({ result := some 0 }, [])
  | some e => ({ err := some e }, [])
  | none =>
      ({ result := some (ad.countFn c) },
       [PipelineEvent.stageThree, PipelineEvent.adapterCount c])

/-- find.ts lines 162-298: forge the stage-two query; on
`E_INVALID_CRITERIA` call `done` with a usage error (modelled by its code),
on `E_NOOP` call `done(undefined, [])` and stop; otherwise run `helpFind`
(stage-three forge plus adapter dispatch, not part of the analyzed
sources; modelled as the adapter oracle) and return its records. -/
def MethodFind.exec (attrs : List String) (c : Criteria) (ad : Adapter) :
    FindOutcome × List PipelineEvent :=
  match forgeReadCriteria attrs c with
  | some ECode.E_NOOP => ({ records := some [] }, [])
  | some e => ({ err := some e }, [])
  | none =>
      ({ records := some (ad.findFn c) },
       [PipelineEvent.stageThree, PipelineEvent.adapterFind c])

/-- The datastore as seen by `findOrCreate`: oracles for the internal
`findOne` and `create` calls (those methods are not part of the analyzed
sources). -/
structure Db where
  findOne : Criteria → Option Record
  create : Record → Record

/-- Modelled from the spec: `findOne` (not part of the analyzed sources)
is a read method, so on the canonical no-op criteria it reports its
empty-equivalent value -- no record -- without adapter contact; otherwise
it consults the datastore. -/
def findOneModel (db : Db) (c : Criteria) : Option Record :=
  if whereIsNoop c.whereC then none else db.findOne c

/-- find.ts lines 536-540: drop the `limit`, `skip` and `sort` clauses that
stage-two forging attached, so the inner `findOne` query is valid. -/
def stripPaging (c : Criteria) : Criteria :=
  { c with limit := none, skip := none, sort := none }

/-- The internal calls `findOrCreate` dispatches, with the meta each one
received. -/
inductive FOCEvent
  | findOneEv (c : Criteria) (meta : Option Meta)
  | createEv (r : Record) (meta : Meta)
deriving DecidableEq, Repr

/-- The `(err, record, wasCreated)` triple handed to `findOrCreate`'s
`done`. -/
structure FOCOutcome where
  err : Option ECode := none
  record : Option Record := none
  wasCreated : Option Bool := none
deriving DecidableEq, Repr

/-- find.ts lines 536-595: the body of `findOrCreate` after the stage-two
switch -- strip paging, run `findOne`; if a record comes back hand it out
with `wasCreated = false` and perform no write; otherwise delete the
primary key from the new record when its value is the automatic `null`,
and `create` with the caller's meta extended with `fetch: true`, handing
out the created record with `wasCreated = true`. -/
def findOrCreateBody (pk : String) (c : Criteria) (newRecord : Record)
    (meta : Option Meta) (db : Db) : FOCOutcome × List FOCEvent :=
  let cs := stripPaging c
  match findOneModel db cs with
  | some r =>
      ({ record := some r, wasCreated := some false }, [FOCEvent.findOneEv cs meta])
  | none =>
      let nr := if recGet newRecord pk = some none then recDelete newRecord pk else newRecord
      let mm := { meta.getD {} with fetch := some true }
      ({ record := some (db.create nr), wasCreated := some true },
       [FOCEvent.findOneEv cs meta, FOCEvent.createEv nr mm])

/-- find.ts lines 474-595: `MethodFindOrCreate`'s executor -- forge the
stage-two query; usage errors stop the call, but `E_NOOP` does not: the
criteria is rewritten in place to the standard no-op shape
`{ where: { or: [] } }` (line 526-527) and execution falls through to the
body, whose `findOne` then matches nothing and whose `create` always
runs. -/
def MethodFindOrCreate.exec (attrs : List String) (pk : String) (c : Criteria)
    (newRecord : Record) (meta : Option Meta) (db : Db) :
    FOCOutcome × List FOCEvent :=
  match forgeReadCriteria attrs c with
  | some ECode.E_NOOP =>
      findOrCreateBody pk { whereC := WhereClause.disj [] } newRecord meta db
  | some e => ({ err := some e }, [])
  | none => findOrCreateBody pk c newRecord meta db

/-- A loosely-typed JS value, for modelling the variadic argument
shuffling. -/
inductive JsVal
  | undef
  | modelObj
  | num (n : Nat)
  | str (s : String)
  | arr (l : List Nat)
  | fn
  | dict (m : Meta)
deriving DecidableEq, Repr

/-- `args[i]` with JS semantics: out-of-range access yields `undefined`. -/
def argGet (args : List JsVal) (i : Nat) : JsVal :=
  args.getD i JsVal.undef

/-- How the variadic stage populated the query and located the callback. -/
structure VariadicResult where
  targetRecordIds : JsVal := JsVal.undef
  collectionAttrName : JsVal := JsVal.undef
  associatedIds : JsVal := JsVal.undef
  explicitCb : JsVal := JsVal.undef
  meta : JsVal := JsVal.undef
deriving DecidableEq, Repr

/-- replace-collection.ts lines 126-161: the variadic stage of
`MethodReplaceCollection.execute(obj, ...)`.  `var args = arguments` at
line 126 captures the full JS `arguments` of the static method, whose
index 0 is the model object `obj` itself -- so `args` here is the complete
argument list including the model.  `query.targetRecordIds = args[0]`,
`query.collectionAttrName = args[1]`; then if `args[2]` is defined it
becomes `associatedIds` with `args[3]` the callback and `args[4]` the
meta, otherwise `args[2]` is the callback and `args[3]` the meta. -/
def handleVariadicReplaceCollection (args : List JsVal) : VariadicResult :=
  let t := argGet args 0
  let cn := argGet args 1
  if argGet args 2 ≠ JsVal.undef then
    { targetRecordIds := t, collectionAttrName := cn,
      associatedIds := argGet args 2, explicitCb := argGet args 3,
      meta := argGet args 4 }
  else
    { targetRecordIds := t, collectionAttrName := cn,
      explicitCb := argGet args 2, meta := argGet args 3 }

/-- The forger passes a `replaceCollection` query with a non-empty target list. -/
theorem forgeRCStageTwo_eq_none {q : RCQuery} (ht : q.targetRecordIds ≠ []) :
    forgeRCStageTwo q = none := by
  unfold forgeRCStageTwo
  rw [if_neg]
  intro h0
  exact ht (List.length_eq_zero.mp h0)

/-- With a non-empty target list the executor runs the expansion body. -/
theorem replaceCollectionExec_expand {orm : Orm} {pid : String} {q : RCQuery}
    (ht : q.targetRecordIds ≠ []) :
    replaceCollectionExec orm pid q = rcExpand orm pid q := by
  unfold replaceCollectionExec
  rw [forgeRCStageTwo_eq_none ht]

/-- Membership in the prepared join records is exactly being a pair of the
cartesian product. -/
theorem mem_insertRecordsOf {pRef cRef : String} {targets assoc : List Nat}
    {rec : List (String × Nat)} :
    rec ∈ insertRecordsOf pRef cRef targets assoc ↔
      ∃ t, t ∈ targets ∧ ∃ a, a ∈ assoc ∧ rec = [(pRef, t), (cRef, a)] := by
  unfold insertRecordsOf
  simp [List.mem_flatMap, List.mem_map, eq_comm]

/-- One join record is prepared per pair of the cartesian product. -/
theorem length_insertRecordsOf (pRef cRef : String) (targets assoc : List Nat) :
    (insertRecordsOf pRef cRef targets assoc).length =
      targets.length * assoc.length := by
  unfold insertRecordsOf
  induction targets with
  | nil => simp
  | cons t ts ih =>
      simp only [List.flatMap_cons, List.length_append, List.length_map, List.length_cons, ih]
      ring

/-- A sequence of two gated operations completes in exactly one order. -/
theorem lin_two (a b : PrimOp) (tr : List PrimOp)
    (h : Linearizes (Schedule.seq a (Schedule.seq b Schedule.done)) tr) :
    tr = [a, b] := by
  cases h with
  | seq h1 =>
      cases h1 with
      | seq h2 => cases h2 with | done => rfl

/-- A single gated operation completes alone. -/
theorem lin_one (a : PrimOp) (tr : List PrimOp)
    (h : Linearizes (Schedule.seq a Schedule.done) tr) : tr = [a] := by
  cases h with
  | seq h1 => cases h1 with | done => rfl

/-- Every completion order of a gated head with an unordered batch starts
with the head, followed by some permutation of the batch. -/
theorem lin_seq_par (op : PrimOp) (ops tr : List PrimOp)
    (h : Linearizes (Schedule.seq op (Schedule.par ops Schedule.done)) tr) :
    ∃ rest, tr = op :: rest ∧ List.Perm rest ops := by
  cases h with
  | seq h1 =>
      cases h1 with
      | par hperm h2 =>
          cases h2 with
          | done =>
              refine ⟨_, rfl, ?_⟩
              simpa using hperm

/-- Conversely, every permutation of the batch is a possible completion
order after the gated head. -/
theorem lin_seq_par_intro (op : PrimOp) (ops l : List PrimOp)
    (h : List.Perm l ops) :
    Linearizes (Schedule.seq op (Schedule.par ops Schedule.done)) (op :: l) := by
  have h2 : Linearizes (Schedule.par ops Schedule.done) (l ++ []) :=
    Linearizes.par h Linearizes.done
  rw [List.append_nil] at h2
  exact Linearizes.seq h2

/-- Every operation of the many-to-many schedule keeps the lifecycle flag
of the meta it was built from. -/
theorem m2m_ops_meta {pRef cRef : String} {targets assoc : List Nat} {m : Meta}
    {op : PrimOp} (h : op ∈ (manyToManySchedule pRef cRef targets assoc m).ops) :
    op.meta.skipAllLifecycleCallbacks = m.skipAllLifecycleCallbacks := by
  unfold manyToManySchedule at h
  by_cases ha : assoc.length = 0
  · simp [ha, Schedule.ops] at h
    subst h
    rfl
  · simp [ha, Schedule.ops] at h
    rcases h with rfl | rfl <;> rfl

/-- Every operation of the one-to-many schedule carries exactly the meta it
was built from. -/
theorem o2m_ops_meta {viaKey pk : String} {targets assoc : List Nat} {m : Meta}
    {op : PrimOp} (h : op ∈ (oneToManySchedule viaKey pk targets assoc m).ops) :
    op.meta = m := by
  simp [oneToManySchedule, Schedule.ops, List.mem_flatMap, List.mem_map] at h
  rcases h with rfl | ⟨t, _, a, _, rfl⟩ <;> rfl

/-- The null-out update of the one-to-many expansion (criteria: `via` value
in the target ids; values: `via := null`). -/
def rcNullOutOp (orm : Orm) (pid : String) (q : RCQuery) : PrimOp :=
  PrimOp.updateIn (keyOf (rcAssocDef orm pid q).via) q.targetRecordIds
    (keyOf (rcAssocDef orm pid q).via) none (rcModifiedMeta q)

/-- The per-pair updates of the one-to-many expansion: for each
`(targetId, associatedId)` pair, set `via := targetId` on the child whose
primary key equals `associatedId`. -/
def rcPairOps (orm : Orm) (pid : String) (q : RCQuery) : List PrimOp :=
  q.targetRecordIds.flatMap (fun targetId => q.associatedIds.map (fun associatedId =>
    PrimOp.updateEq (rcChild orm pid q).primaryKey associatedId
      (keyOf (rcAssocDef orm pid q).via) (some targetId) (rcModifiedMeta q)))

/-- C1: for every many-to-many `replaceCollection` with non-empty
`targetRecordIds` and non-empty `associatedIds`, the expansion is exactly
one destroy of all join rows whose parent-reference column is in
`targetRecordIds`, gated before exactly one bulk `createEach` whose records
are exactly the cartesian product `targetRecordIds × associatedIds`
(parent reference = target id, child reference = associated id); the only
completion order is destroy first, then the insert. -/
theorem many_to_many_replace_destroy_then_insert
    (orm : Orm) (pid : String) (q : RCQuery)
    (ht : q.targetRecordIds ≠ []) (ha : q.associatedIds ≠ [])
    (hm2m : classifyManyToMany orm (rcAssocDef orm pid q) = true) :
    replaceCollectionExec orm pid q =
      { sched := Schedule.seq
          (PrimOp.destroy (keyOf (rcRefs orm pid q).1) q.targetRecordIds (rcM2MMeta q))
          (Schedule.seq
            (PrimOp.createEach
              (insertRecordsOf (keyOf (rcRefs orm pid q).1) (keyOf (rcRefs orm pid q).2)
                q.targetRecordIds q.associatedIds)
              (rcM2MMeta q))
            Schedule.done) }
    ∧ (∀ rec, rec ∈ insertRecordsOf (keyOf (rcRefs orm pid q).1)
          (keyOf (rcRefs orm pid q).2) q.targetRecordIds q.associatedIds ↔
        ∃ t, t ∈ q.targetRecordIds ∧ ∃ a, a ∈ q.associatedIds ∧
          rec = [(keyOf (rcRefs orm pid q).1, t), (keyOf (rcRefs orm pid q).2, a)])
    ∧ (insertRecordsOf (keyOf (rcRefs orm pid q).1) (keyOf (rcRefs orm pid q).2)
          q.targetRecordIds q.associatedIds).length
        = q.targetRecordIds.length * q.associatedIds.length
    ∧ (∀ tr, Linearizes (replaceCollectionExec orm pid q).sched tr →
        tr = [PrimOp.destroy (keyOf (rcRefs orm pid q).1) q.targetRecordIds (rcM2MMeta q),
              PrimOp.createEach
                (insertRecordsOf (keyOf (rcRefs orm pid q).1) (keyOf (rcRefs orm pid q).2)
                  q.targetRecordIds q.associatedIds)
                (rcM2MMeta q)]) := by
  have hlen : ¬ q.associatedIds.length = 0 := by
    intro h0
    exact ha (List.length_eq_zero.mp h0)
  have hsched : replaceCollectionExec orm pid q =
      { sched := Schedule.seq
          (PrimOp.destroy (keyOf (rcRefs orm pid q).1) q.targetRecordIds (rcM2MMeta q))
          (Schedule.seq
            (PrimOp.createEach
              (insertRecordsOf (keyOf (rcRefs orm pid q).1) (keyOf (rcRefs orm pid q).2)
                q.targetRecordIds q.associatedIds)
              (rcM2MMeta q))
            Schedule.done) } := by
    rw [replaceCollectionExec_expand ht]
    simp only [rcExpand, hm2m, if_true, manyToManySchedule, hlen, if_false, rcM2MMeta]
  refine ⟨hsched, fun rec => mem_insertRecordsOf, length_insertRecordsOf _ _ _ _, ?_⟩
  intro tr htr
  rw [hsched] at htr
  exact lin_two _ _ _ htr

/-- Junction-table fixture: the implicit `pet_owners` join model of the
many-to-many association `owners` on model `pet`. -/
def petOwnersModel : ModelDescriptor :=
  { identity := "pet_owners", primaryKey := "id", junctionTable := some true,
    schemaAttrs :=
      [("owner", { references := some ("owner"), columnName := some ("owner_id") }),
       ("pet", { references := some ("pet"), columnName := some ("pet_id") })] }

/-- Fixture: the parent model `pet`, whose `owners` association entry
points at the `pet_owners` junction. -/
def petModel : ModelDescriptor :=
  { identity := "pet", primaryKey := "id",
    schemaAssoc :=
      [("owners", { collection := "owner", referenceIdentity := "pet_owners",
                    onCol := some ("pet_id") })] }

/-- Fixture: the associated model `owner`. -/
def ownerModel : ModelDescriptor :=
  { identity := "owner", primaryKey := "id" }

/-- Fixture ORM holding the three models. -/
def petOrm : Orm :=
  { collections := fun s =>
      if s = "pet_owners" then petOwnersModel
      else if s = "owner" then ownerModel
      else petModel }

/-- Fixture query: `Pet.replaceCollection([1,2], 'owners', [9])`. -/
def petQ : RCQuery :=
  { targetRecordIds := [1, 2], collectionAttrName := "owners", associatedIds := [9] }

/-- C1 witness: on the `pet_owners` fixture the hypotheses hold, and
`replaceCollection([1,2], 'owners', [9])` destroys rows for parents 1 and 2
first and then inserts exactly the join rows `(1,9)` and `(2,9)`. -/
theorem many_to_many_replace_destroy_then_insert_witness :
    petQ.targetRecordIds ≠ [] ∧ petQ.associatedIds ≠ []
    ∧ classifyManyToMany petOrm (rcAssocDef petOrm ("pet") petQ) = true
    ∧ replaceCollectionExec petOrm ("pet") petQ =
        { sched := Schedule.seq
            (PrimOp.destroy ("pet") [1, 2] (rcM2MMeta petQ))
            (Schedule.seq
              (PrimOp.createEach
                [[("pet", 1), ("owner", 9)], [("pet", 2), ("owner", 9)]]
                (rcM2MMeta petQ))
              Schedule.done) } := by
  refine ⟨by decide, by decide, by decide, ?_⟩
  have h := (many_to_many_replace_destroy_then_insert petOrm ("pet") petQ
    (by decide) (by decide) (by decide)).1
  rw [h]
  rfl

/-- C4: for every one-to-many `replaceCollection`, the expansion is the
single null-out update gated before the unordered batch of per-pair
updates: every possible completion order starts with the null-out update
and continues with some permutation of the per-pair updates, and every
permutation of the per-pair updates is a possible completion order. -/
theorem one_to_many_replace_null_out_first
    (orm : Orm) (pid : String) (q : RCQuery) (ht : q.targetRecordIds ≠ [])
    (h12n : classifyManyToMany orm (rcAssocDef orm pid q) = false) :
    replaceCollectionExec orm pid q =
      { sched := Schedule.seq (rcNullOutOp orm pid q)
          (Schedule.par (rcPairOps orm pid q) Schedule.done) }
    ∧ (∀ tr, Linearizes (replaceCollectionExec orm pid q).sched tr →
        ∃ rest, tr = rcNullOutOp orm pid q :: rest ∧ List.Perm rest (rcPairOps orm pid q))
    ∧ (∀ l, List.Perm l (rcPairOps orm pid q) →
        Linearizes (replaceCollectionExec orm pid q).sched (rcNullOutOp orm pid q :: l)) := by
  have hsched : replaceCollectionExec orm pid q =
      { sched := Schedule.seq (rcNullOutOp orm pid q)
          (Schedule.par (rcPairOps orm pid q) Schedule.done) } := by
    rw [replaceCollectionExec_expand ht]
    simp only [rcExpand, h12n, if_false, Bool.false_eq_true, oneToManySchedule,
      rcNullOutOp, rcPairOps]
  refine ⟨hsched, ?_, ?_⟩
  · intro tr htr
    rw [hsched] at htr
    exact lin_seq_par _ _ _ htr
  · intro l hl
    rw [hsched]
    exact lin_seq_par_intro _ _ _ hl

/-- One-to-many fixture: model `person` with plural association `pets`
realized by the foreign key `keeper` on model `animal`. -/
def personModel : ModelDescriptor :=
  { identity := "person", primaryKey := "id",
    schemaAssoc :=
      [("pets", { collection := "animal", referenceIdentity := "animal",
                  via := some ("keeper") })] }

/-- Fixture: the child model `animal`. -/
def animalModel : ModelDescriptor :=
  { identity := "animal", primaryKey := "id" }

/-- Fixture ORM for the one-to-many shape. -/
def personOrm : Orm :=
  { collections := fun s => if s = "person" then personModel else animalModel }

/-- Fixture query: `Person.replaceCollection([1,2], 'pets', [7,8])`. -/
def petsQ : RCQuery :=
  { targetRecordIds := [1, 2], collectionAttrName := "pets", associatedIds := [7, 8] }

/-- C4 witness: on the `person`/`animal` fixture the association is
one-to-many and the expansion is the null-out update gated before the four
per-pair updates. -/
theorem one_to_many_replace_null_out_first_witness :
    petsQ.targetRecordIds ≠ []
    ∧ classifyManyToMany personOrm (rcAssocDef personOrm ("person") petsQ) = false
    ∧ replaceCollectionExec personOrm ("person") petsQ =
        { sched := Schedule.seq (rcNullOutOp personOrm ("person") petsQ)
            (Schedule.par (rcPairOps personOrm ("person") petsQ) Schedule.done) } := by
  refine ⟨by decide, by decide, ?_⟩
  exact (one_to_many_replace_null_out_first personOrm ("person") petsQ
    (by decide) (by decide)).1

/-- C6: an empty `targetRecordIds` list makes stage-two forging raise
`E_NOOP` and `replaceCollection` invokes its handler with no error and no
result, dispatching nothing; and a many-to-many call with an empty
`associatedIds` list performs the destroy of the existing join rows and
issues no insert. -/
theorem replace_collection_noop_and_clear
    (orm : Orm) (pid attr : String) (assoc : List Nat) (m : Option Meta)
    (targets : List Nat) (ht : targets ≠ [])
    (hm2m : classifyManyToMany orm
      (rcAssocDef orm pid { targetRecordIds := targets, collectionAttrName := attr,
                            associatedIds := [], meta := m }) = true) :
    replaceCollectionExec orm pid
        { targetRecordIds := [], collectionAttrName := attr,
          associatedIds := assoc, meta := m } = {}
    ∧ replaceCollectionExec orm pid
        { targetRecordIds := targets, collectionAttrName := attr,
          associatedIds := [], meta := m } =
      { sched := Schedule.seq
          (PrimOp.destroy
            (keyOf (rcRefs orm pid { targetRecordIds := targets, collectionAttrName := attr,
                                     associatedIds := [], meta := m }).1)
            targets
            (rcM2MMeta { targetRecordIds := targets, collectionAttrName := attr,
                         associatedIds := [], meta := m }))
          Schedule.done } := by
  constructor
  · rfl
  · rw [replaceCollectionExec_expand ht]
    simp only [rcExpand, hm2m, if_true, manyToManySchedule, List.length_nil, rcM2MMeta,
      if_pos rfl]

/-- C6 witness: on the `pet_owners` fixture, an empty target list is a pure
no-op, and clearing the collection (`associatedIds = []`) destroys the join
rows of parents 1 and 2 and inserts nothing. -/
theorem replace_collection_noop_and_clear_witness :
    ([1, 2] : List Nat) ≠ []
    ∧ classifyManyToMany petOrm
        (rcAssocDef petOrm ("pet") { targetRecordIds := [1, 2], collectionAttrName := "owners",
                                     associatedIds := [], meta := none }) = true
    ∧ replaceCollectionExec petOrm ("pet")
        { targetRecordIds := [], collectionAttrName := "owners",
          associatedIds := [9], meta := none } = {}
    ∧ replaceCollectionExec petOrm ("pet")
        { targetRecordIds := [1, 2], collectionAttrName := "owners",
          associatedIds := [], meta := none } =
      { sched := Schedule.seq
          (PrimOp.destroy ("pet") [1, 2]
            { fetch := some false, skipAllLifecycleCallbacks := some true })
          Schedule.done } := by
  refine ⟨by decide, by decide, ?_, ?_⟩
  · exact (replace_collection_noop_and_clear petOrm ("pet") ("owners") [9] none [1, 2]
      (by decide) (by decide)).1
  · have h := (replace_collection_noop_and_clear petOrm ("pet") ("owners") [9] none [1, 2]
      (by decide) (by decide)).2
    rw [h]
    rfl

/-- C7: every primitive operation spawned by a `replaceCollection`
expansion -- on the many-to-many path and on the one-to-many path alike --
carries a meta whose `skipAllLifecycleCallbacks` is `true`, whatever meta
the caller supplied. -/
theorem spawned_ops_skip_lifecycle_callbacks
    (orm : Orm) (pid : String) (q : RCQuery) (op : PrimOp)
    (hmem : op ∈ (replaceCollectionExec orm pid q).sched.ops) :
    op.meta.skipAllLifecycleCallbacks = some true := by
  unfold replaceCollectionExec at hmem
  cases hf : forgeRCStageTwo q with
  | some e =>
      rw [hf] at hmem
      cases e <;> simp [Schedule.ops] at hmem
  | none =>
      rw [hf] at hmem
      unfold rcExpand at hmem
      by_cases hc : classifyManyToMany orm (rcAssocDef orm pid q) = true
      · rw [if_pos hc] at hmem
        have := m2m_ops_meta hmem
        rw [this]
        rfl
      · rw [if_neg hc] at hmem
        have := o2m_ops_meta hmem
        rw [this]
        rfl

/-- C7 witness: the concrete destroy spawned by the fixture query carries
`skipAllLifecycleCallbacks: true`. -/
theorem spawned_ops_skip_lifecycle_callbacks_witness :
    PrimOp.destroy ("pet") [1, 2] (rcM2MMeta petQ)
        ∈ (replaceCollectionExec petOrm ("pet") petQ).sched.ops
    ∧ (PrimOp.destroy ("pet") [1, 2] (rcM2MMeta petQ)).meta.skipAllLifecycleCallbacks
        = some true :=
  ⟨by decide,
   spawned_ops_skip_lifecycle_callbacks petOrm ("pet") petQ
     (PrimOp.destroy ("pet") [1, 2] (rcM2MMeta petQ)) (by decide)⟩

/-- The junction check is truthy exactly when the flag is present and true. -/
theorem isJunction_eq_true {m : ModelDescriptor} :
    isJunction m = true ↔ m.junctionTable = some true := by
  unfold isJunction
  cases h : m.junctionTable with
  | none => simp
  | some b => cases b <;> simp

/-- The through check is truthy exactly when the mapping is present and
non-empty. -/
theorem isThrough_eq_true {m : ModelDescriptor} :
    isThrough m = true ↔ ∃ tt, m.throughTable = some tt ∧ tt ≠ [] := by
  unfold isThrough
  cases h : m.throughTable with
  | none => simp
  | some t =>
      simp only [bne_iff_ne, ne_eq, Option.some.injEq]
      constructor
      · intro hlen
        exact ⟨t, rfl, fun h0 => hlen (by rw [h0]; rfl)⟩
      · rintro ⟨tt, rfl, hne⟩
        intro h0
        exact hne (List.length_eq_zero.mp h0)

/-- The mismatch flag of the child-resolution step. -/
theorem resolveChild_fst (orm : Orm) (sd : AssocSchemaDef) :
    (resolveChild orm sd).1 = true ↔
      sd.referenceIdentity ≠ (orm.collections sd.collection).identity := by
  unfold resolveChild
  by_cases h : sd.referenceIdentity = (orm.collections sd.collection).identity
  · simp [h]
  · simp [h]

/-- Fixture model `a` -- no junction flag, no through mapping. -/
def exModelA : ModelDescriptor :=
  { identity := "a", primaryKey := "id" }

/-- Fixture model `b` -- no junction flag, no through mapping. -/
def exModelB : ModelDescriptor :=
  { identity := "b", primaryKey := "id" }

/-- Fixture ORM holding the two plain models. -/
def exOrm : Orm :=
  { collections := fun s => if s = "b" then exModelB else exModelA }

/-- Fixture association entry whose `referenceIdentity` names a model other
than the one its `collection` key resolves to. -/
def exSd : AssocSchemaDef :=
  { collection := "a", referenceIdentity := "b" }

/-- C5 counterexample: an association entry whose `referenceIdentity`
differs from the identity of the model at its `collection` key is
classified many-to-many even though neither involved model carries a
truthy `junctionTable` flag or a non-empty `throughTable` mapping --
refuting the claim that those two flags characterize the classification. -/
theorem classify_iff_flags_counterexample :
    classifyManyToMany exOrm exSd = true
    ∧ isJunction (exOrm.collections exSd.collection) = false
    ∧ isThrough (exOrm.collections exSd.collection) = false
    ∧ isJunction (exOrm.collections exSd.referenceIdentity) = false
    ∧ isThrough (exOrm.collections exSd.referenceIdentity) = false := by
  refine ⟨?_, ?_, ?_, ?_, ?_⟩ <;> decide

/-- C5 (amended): a `replaceCollection` call is classified many-to-many if
and only if the schema entry's `referenceIdentity` differs from the
identity of the model its `collection` key resolves to, or the resolved
(possibly re-pointed) child model carries a truthy `junctionTable` flag, or
it carries a `throughTable` mapping with more than zero entries; in every
other case it is classified one-to-many. -/
theorem classify_many_to_many_characterization (orm : Orm) (sd : AssocSchemaDef) :
    classifyManyToMany orm sd = true ↔
      (sd.referenceIdentity ≠ (orm.collections sd.collection).identity
       ∨ (resolveChild orm sd).2.junctionTable = some true
       ∨ ∃ tt, (resolveChild orm sd).2.throughTable = some tt ∧ tt ≠ []) := by
  unfold classifyManyToMany
  simp only [Bool.or_eq_true]
  rw [resolveChild_fst, isJunction_eq_true, isThrough_eq_true]
  exact or_assoc

/-- C2: for every query whose criteria forges to the `E_NOOP` signal (the
canonical no-op, e.g. `where: { or: [] }`), `find` hands its result handler
`(undefined, [])` and `count` hands its handler `(undefined, 0)`, in both
cases with no stage-three forging and no adapter call. -/
theorem noop_find_count_shortcircuit (attrs : List String) (c : Criteria) (ad : Adapter)
    (h : forgeReadCriteria attrs c = some ECode.E_NOOP) :
    MethodFind.exec attrs c ad = ({ records := some [] }, [])
    ∧ MethodCount.exec attrs c ad = ({ result := some 0 }, []) := by
  unfold MethodFind.exec MethodCount.exec
  rw [h]
  exact ⟨rfl, rfl⟩

/-- Fixture criteria `{ where: { or: [] } }`. -/
def noopCrit : Criteria :=
  { whereC := WhereClause.disj [] }

/-- Fixture adapter whose methods would be observable if called. -/
def trivAdapter : Adapter :=
  { countFn := fun _ => 5, findFn := fun _ => [[("x", some 1)]] }

/-- C2 witness: the empty disjunction forges to `E_NOOP`, and both read
methods short-circuit on it. -/
theorem noop_find_count_shortcircuit_witness :
    forgeReadCriteria ["x"] noopCrit = some ECode.E_NOOP
    ∧ (MethodFind.exec ["x"] noopCrit trivAdapter = ({ records := some [] }, [])
       ∧ MethodCount.exec ["x"] noopCrit trivAdapter = ({ result := some 0 }, [])) :=
  ⟨by decide, noop_find_count_shortcircuit ["x"] noopCrit trivAdapter (by decide)⟩

/-- C8: a `where` clause naming a non-existent attribute makes stage-two
forging fail with `E_INVALID_CRITERIA`, and both `count` and `find` stop
there: no stage-three forge, no adapter call. -/
theorem invalid_attribute_fails_stage_two (attrs : List String) (c : Criteria) (ad : Adapter)
    (h : ∃ a ∈ whereAttrNames c.whereC, attrs.contains a = false) :
    forgeReadCriteria attrs c = some ECode.E_INVALID_CRITERIA
    ∧ MethodCount.exec attrs c ad = ({ err := some ECode.E_INVALID_CRITERIA }, [])
    ∧ MethodFind.exec attrs c ad = ({ err := some ECode.E_INVALID_CRITERIA }, []) := by
  have hv : whereAttrsValid attrs c.whereC = false := by
    obtain ⟨a, ha, hc⟩ := h
    unfold whereAttrsValid
    cases hall : (whereAttrNames c.whereC).all (fun a => attrs.contains a) with
    | false => rfl
    | true =>
        exfalso
        rw [List.all_eq_true] at hall
        have hx := hall a ha
        rw [hc] at hx
        exact Bool.false_ne_true hx
  have hf : forgeReadCriteria attrs c = some ECode.E_INVALID_CRITERIA := by
    unfold forgeReadCriteria
    rw [hv]
    rfl
  refine ⟨hf, ?_, ?_⟩
  · unfold MethodCount.exec
    rw [hf]
  · unfold MethodFind.exec
    rw [hf]

/-- Fixture criteria with a misspelled attribute name. -/
def badAttrCrit : Criteria :=
  { whereC := WhereClause.attrEq ("naem") 3 }

/-- C8 witness: on a model with attribute `name`, a `where` on `naem`
fails stage-two with `E_INVALID_CRITERIA` and neither method reaches the
adapter. -/
theorem invalid_attribute_fails_stage_two_witness :
    (∃ a ∈ whereAttrNames badAttrCrit.whereC, (["name"] : List String).contains a = false)
    ∧ (forgeReadCriteria ["name"] badAttrCrit = some ECode.E_INVALID_CRITERIA
       ∧ MethodCount.exec ["name"] badAttrCrit trivAdapter
           = ({ err := some ECode.E_INVALID_CRITERIA }, [])
       ∧ MethodFind.exec ["name"] badAttrCrit trivAdapter
           = ({ err := some ECode.E_INVALID_CRITERIA }, [])) :=
  ⟨by decide, invalid_attribute_fails_stage_two ["name"] badAttrCrit trivAdapter (by decide)⟩

/-- A criteria that passed stage-two forging has a non-noop `where`. -/
theorem whereIsNoop_eq_false_of_forge_none {attrs : List String} {c : Criteria}
    (hforge : forgeReadCriteria attrs c = none) :
    whereIsNoop c.whereC = false := by
  cases hx : whereIsNoop c.whereC with
  | false => rfl
  | true =>
      exfalso
      unfold forgeReadCriteria at hforge
      by_cases h1 : whereAttrsValid attrs c.whereC = false
      · rw [if_pos h1] at hforge
        exact Option.noConfusion hforge
      · rw [if_neg h1, if_pos hx] at hforge
        exact Option.noConfusion hforge

/-- On a non-noop criteria, the inner `findOne` consults the datastore. -/
theorem findOneModel_of_not_noop {db : Db} {c : Criteria}
    (h : whereIsNoop c.whereC = false) :
    findOneModel db c = db.findOne c := by
  unfold findOneModel
  rw [h]
  rfl

/-- C3: for every forged `findOrCreate(criteria, newRecord)`: if the inner
`findOne` returns a record, the handler receives
`(undefined, thatRecord, false)` and no create is dispatched; otherwise a
create of `newRecord` is dispatched -- with the primary-key field deleted
beforehand when its value is null -- and the handler receives
`(undefined, createdRecord, true)`. -/
theorem findOrCreate_found_or_create
    (attrs : List String) (pk : String) (c : Criteria) (newRecord : Record)
    (meta : Option Meta) (db : Db)
    (hforge : forgeReadCriteria attrs c = none) :
    (∀ r, db.findOne (stripPaging c) = some r →
       MethodFindOrCreate.exec attrs pk c newRecord meta db =
         ({ record := some r, wasCreated := some false },
          [FOCEvent.findOneEv (stripPaging c) meta]))
    ∧ (db.findOne (stripPaging c) = none →
       MethodFindOrCreate.exec attrs pk c newRecord meta db =
         ({ record := some (db.create
              (if recGet newRecord pk = some none then recDelete newRecord pk else newRecord)),
            wasCreated := some true },
          [FOCEvent.findOneEv (stripPaging c) meta,
           FOCEvent.createEv
             (if recGet newRecord pk = some none then recDelete newRecord pk else newRecord)
             ({ meta.getD {} with fetch := some true })])) := by
  have hnoop : whereIsNoop (stripPaging c).whereC = false :=
    whereIsNoop_eq_false_of_forge_none hforge
  have hexec : MethodFindOrCreate.exec attrs pk c newRecord meta db =
      findOrCreateBody pk c newRecord meta db := by
    unfold MethodFindOrCreate.exec
    rw [hforge]
  constructor
  · intro r hr
    rw [hexec]
    unfold findOrCreateBody
    simp only []
    rw [findOneModel_of_not_noop hnoop, hr]
  · intro hr
    rw [hexec]
    unfold findOrCreateBody
    simp only []
    rw [findOneModel_of_not_noop hnoop, hr]

/-- Fixture criteria matching on `name`. -/
def nameCrit : Criteria :=
  { whereC := WhereClause.attrEq ("name") 3, limit := some 2 }

/-- Fixture new record with an explicit automatic null primary key. -/
def newRec : Record :=
  [("id", none), ("name", some 3)]

/-- Fixture datastore in which the `findOne` misses. -/
def dbMiss : Db :=
  { findOne := fun _ => none, create := fun r => ("id", some 7) :: r }

/-- Fixture datastore in which the `findOne` hits. -/
def dbHit : Db :=
  { findOne := fun _ => some [("id", some 4), ("name", some 3)],
    create := fun r => ("id", some 7) :: r }

/-- C3 witness: with the fixture criteria forged, a hit returns the found
record with the flag false and no create; a miss creates the new record
(null `id` dropped, so the store assigns `id = 7`) and returns it with the
flag true. -/
theorem findOrCreate_found_or_create_witness :
    forgeReadCriteria ["name"] nameCrit = none
    ∧ MethodFindOrCreate.exec ["name"] ("id") nameCrit newRec none dbHit =
        ({ record := some [("id", some 4), ("name", some 3)], wasCreated := some false },
         [FOCEvent.findOneEv (stripPaging nameCrit) none])
    ∧ MethodFindOrCreate.exec ["name"] ("id") nameCrit newRec none dbMiss =
        ({ record := some [("id", some 7), ("name", some 3)], wasCreated := some true },
         [FOCEvent.findOneEv (stripPaging nameCrit) none,
          FOCEvent.createEv [("name", some 3)] { fetch := some true }]) := by
  refine ⟨by decide, ?_, ?_⟩
  · have h := (findOrCreate_found_or_create ["name"] ("id") nameCrit newRec none dbHit
      (by decide)).1 [("id", some 4), ("name", some 3)] rfl
    rw [h]
  · have h := (findOrCreate_found_or_create ["name"] ("id") nameCrit newRec none dbMiss
      (by decide)).2 rfl
    rw [h]
    rfl

/-- C10: a `findOrCreate` whose criteria forges to `E_NOOP` does not
short-circuit: the criteria is rewritten to `{ where: { or: [] } }` with
the `limit`, `skip` and `sort` clauses removed, the inner `findOne` runs on
that no-op criteria and matches nothing, and the method always proceeds to
create `newRecord` (null primary key dropped) with the caller's meta
extended with `fetch: true`, handing out `(undefined, createdRecord, true)`. -/
theorem findOrCreate_noop_still_creates
    (attrs : List String) (pk : String) (c : Criteria) (newRecord : Record)
    (meta : Option Meta) (db : Db)
    (hforge : forgeReadCriteria attrs c = some ECode.E_NOOP) :
    MethodFindOrCreate.exec attrs pk c newRecord meta db =
      ({ record := some (db.create
           (if recGet newRecord pk = some none then recDelete newRecord pk else newRecord)),
         wasCreated := some true },
       [FOCEvent.findOneEv { whereC := WhereClause.disj [] } meta,
        FOCEvent.createEv
          (if recGet newRecord pk = some none then recDelete newRecord pk else newRecord)
          ({ meta.getD {} with fetch := some true })]) := by
  unfold MethodFindOrCreate.exec
  rw [hforge]
  rfl

/-- C10 witness: a criteria with an empty disjunction (and a `limit`)
forges to `E_NOOP`, yet `findOrCreate` still creates the new record: the
`findOne` event carries the stripped no-op criteria and the create carries
`fetch: true`. -/
theorem findOrCreate_noop_still_creates_witness :
    forgeReadCriteria ["name"] { whereC := WhereClause.disj [], limit := some 2 }
        = some ECode.E_NOOP
    ∧ MethodFindOrCreate.exec ["name"] ("id")
        { whereC := WhereClause.disj [], limit := some 2 } newRec none dbMiss =
      ({ record := some [("id", some 7), ("name", some 3)], wasCreated := some true },
       [FOCEvent.findOneEv { whereC := WhereClause.disj [] } none,
        FOCEvent.createEv [("name", some 3)] { fetch := some true }]) := by
  refine ⟨by decide, ?_⟩
  have h := findOrCreate_noop_still_creates ["name"] ("id")
    { whereC := WhereClause.disj [], limit := some 2 } newRec none dbMiss (by decide)
  rw [h]
  rfl

/-- C9: evaluation of the variadic stage at
`replaceCollection([1,2], 'owners', [9], fn)` -- the call
`execute(model, [1,2], 'owners', [9], fn)`.  Because `var args = arguments`
captures the model object at index 0, every argument is read one slot too
early: the model lands in `targetRecordIds`, the associated ids `[9]` are
taken as the callback, and the final function `fn` is folded into `meta` --
it is never treated as the result handler, contradicting the method's own
parameter documentation. -/
theorem replace_collection_variadic_shift_eval :
    handleVariadicReplaceCollection
        [JsVal.modelObj, JsVal.arr [1, 2], JsVal.str ("owners"), JsVal.arr [9], JsVal.fn] =
      { targetRecordIds := JsVal.modelObj, collectionAttrName := JsVal.arr [1, 2],
        associatedIds := JsVal.str ("owners"), explicitCb := JsVal.arr [9],
        meta := JsVal.fn } := by
  decide
